import Mathlib

/-!
Verification development for the media-analysis core of the repository
(`backend/video_router.py` and `backend/voice_router.py`).

The Python handlers are shallowly embedded: the external model services
(whisper, the face-proposal net, the emotion CNN, mediapipe hands, the
keypoint classifier, the HTTP text classifier) are oracle inputs carried by
an environment record, while every piece of control flow, arithmetic and
aggregation written in the routers themselves is translated directly.
Python dicts with string keys are modelled as insertion-ordered association
lists, Python `sorted` as a stable insertion sort, and float confidences as
rationals.
-/

namespace IFS

/-! ### Python string helpers (`str.strip`, `str.split`, `str.startswith`) -/

/-- Whitespace recognised by Python's default `str.strip` / `str.split`. -/
def pySpace (c : Char) : Bool :=
  c = ' ' || c = '\t' || c = '\n' || c = '\r' || c = '\x0b' || c = '\x0c'

/-- Python `s.strip()`: drop leading and trailing whitespace. -/
def pyStrip (s : String) : String :=
  String.mk (((s.data.dropWhile pySpace).reverse.dropWhile pySpace).reverse)

/-- Auxiliary for `pySplit`: scan the characters, accumulating the current
word (reversed) and emitting it at each whitespace boundary. -/
def pyWordsAux : List Char → List Char → List String
  | [], [] => []
  | [], acc => [String.mk acc.reverse]
  | c :: rest, acc =>
    if pySpace c then
      match acc with
      | [] => pyWordsAux rest []
      | _ :: _ => String.mk acc.reverse :: pyWordsAux rest []
    else pyWordsAux rest (c :: acc)

/-- Python `s.split()` with no argument: split on whitespace runs, dropping
empty chunks. -/
def pySplit (s : String) : List String :=
  pyWordsAux s.data []

/-- Python `s.startswith(pre)` on code points. -/
def pyStartswith (pre s : String) : Bool :=
  pre.data.isPrefixOf s.data

/-- Python `x or ""` for an optional string (`None` and `""` are falsy and
both yield `""`, which is also what `some ""` yields). -/
def pyOrEmpty (t : Option String) : String :=
  match t with
  | none => ""
  | some s => s

/-- Python `hasattr(str, "trim")`: Python strings have no `trim` method. -/
def hasattr_str_trim : Bool := false

/-- Placeholder meaning for the dead `.trim()` branch of the transcript
expression; it is never evaluated because `hasattr_str_trim = false`. -/
def pyTrimStub : String → String := fun s => s

/-- The transcript expression of `analyze_video` line 278:
`(result.get("text") or "").trim() if hasattr(str, "trim") else
(result.get("text") or "").strip()`, parameterised by the meaning of the
(nonexistent) `trim` method. -/
def pyTranscriptExpr (trimF : String → String) (t : Option String) : String :=
  if hasattr_str_trim then trimF (pyOrEmpty t) else pyStrip (pyOrEmpty t)

/-! ### Histograms: Python dicts as insertion-ordered association lists -/

/-- A Python `dict[str, int]` histogram: keys unique, insertion order kept. -/
abbrev Hist := List (String × Nat)

/-- Python `counts[label] = counts.get(label, 0) + 1`: bump the first entry with the
key, or append a fresh entry with count 1 at the end. -/
def histIncr (h : Hist) (k : String) : Hist :=
  match h with
  | [] => [(k, 1)]
  | p :: rest => if p.1 = k then (p.1, p.2 + 1) :: rest else p :: histIncr rest k

/-- Total number of increments recorded in a histogram. -/
def histTotal (h : Hist) : Nat :=
  (h.map (fun p => p.2)).sum

/-- Largest count appearing in the histogram (0 on empty). -/
def maxCount (h : Hist) : Nat :=
  h.foldr (fun p m => max p.2 m) 0

/-- Stable descending insertion (by count): `x` is placed before the first
entry whose count is not larger, matching the stability of Python `sorted`
with `reverse=True`. -/
def insertDesc (x : String × Nat) : Hist → Hist
  | [] => [x]
  | y :: ys => if x.2 < y.2 then y :: insertDesc x ys else x :: y :: ys

/-- Python `sorted(counts.items(), key=lambda x: x[1], reverse=True)`:
a stable sort, descending by count. -/
def pySortedDesc : Hist → Hist
  | [] => []
  | x :: xs => insertDesc x (pySortedDesc xs)

/-- Python `sorted(...)[0][0]`: the key of the first entry of the sorted list.
Only used on non-empty histograms (guarded in both detectors). -/
def dominantOf (h : Hist) : String :=
  ((pySortedDesc h).headD ("", 0)).1

/-! ### Emotion detector (`_detect_emotions`) -/

/-- The sparse index-to-label dict `EMO_LABELS` from training; indices 1 and
7+ are absent. -/
def EMO_LABELS (i : Nat) : Option String :=
  if i = 0 then some "Angry"
  else if i = 2 then some "Fear"
  else if i = 3 then some "Happy"
  else if i = 4 then some "Neutral"
  else if i = 5 then some "Sad"
  else if i = 6 then some "Surprise"
  else none

/-- Lookup `EMO_LABELS.get(label_idx, "Neutral")`. -/
def emoLabelGet (i : Nat) : String :=
  (EMO_LABELS i).getD "Neutral"

/-- The closed emotion label set, in the enumeration order of `EMO_LABELS`. -/
def emoEnumeration : List String :=
  ["Angry", "Fear", "Happy", "Neutral", "Sad", "Surprise"]

/-- One face-proposal of the face net for a frame: a confidence and a pixel
bounding box (the net's raw output scaled by frame size, as ints). -/
structure FaceDet where
  conf : ℚ
  x1 : Int
  y1 : Int
  x2 : Int
  y2 : Int
deriving DecidableEq

/-- Clamp a proposal's box to the frame:
`x1, y1 = max(0, x1), max(0, y1); x2, y2 = min(w-1, x2), min(h-1, y2)`. -/
def clampBox (w h : Nat) (d : FaceDet) : Int × Int × Int × Int :=
  (max 0 d.x1, max 0 d.y1, min ((w : Int) - 1) d.x2, min ((h : Int) - 1) d.y2)

/-- Loop body of the best-face scan: skip proposals below confidence 0.85 or
with a clamped box smaller than 50 px on a side; keep the strictly most
confident survivor. -/
def bestFaceStep (w h : Nat) (acc : Option (Int × Int × Int × Int) × ℚ)
    (d : FaceDet) : Option (Int × Int × Int × Int) × ℚ :=
  if d.conf < mkRat 85 100 then acc
  else
    let b := clampBox w h d
    if b.2.2.1 - b.1 < 50 ∨ b.2.2.2 - b.2.1 < 50 then acc
    else if d.conf > acc.2 then (some b, d.conf) else acc

/-- The single best face of a frame (`best` after the proposal loop,
starting from `best = None, best_conf = 0.0`). -/
def bestFace (w h : Nat) (dets : List FaceDet) : Option (Int × Int × Int × Int) :=
  (dets.foldl (bestFaceStep w h) (none, 0)).1

/-- Number of pixels of the crop `gray[y1:y2, x1:x2]` (slice bounds already
clamped inside the frame). -/
def cropSize (b : Int × Int × Int × Int) : Nat :=
  (b.2.2.2 - b.2.1).toNat * (b.2.2.1 - b.1).toNat

/-- One sampled frame, together with the oracle outputs of the external
models on it: the face net's proposals, the emotion CNN's argmax index for
the best-face crop, and the keypoint-classifier index for each hand that
mediapipe reports. -/
structure Frame where
  w : Nat
  h : Nat
  dets : List FaceDet
  predIdx : Nat
  hands : List Nat
deriving DecidableEq

/-- The label the emotion pass records for a frame, if any: no label when no
proposal survives the filters, or when the crop is empty; otherwise
`EMO_LABELS.get(argmax, "Neutral")`. -/
def emoFrameLabel (f : Frame) : Option String :=
  match bestFace f.w f.h f.dets with
  | none => none
  | some b => if cropSize b = 0 then none else some (emoLabelGet f.predIdx)

/-- Histogram update of `_detect_emotions` for one frame. -/
def emoStep (h : Hist) (f : Frame) : Hist :=
  match emoFrameLabel f with
  | none => h
  | some l => histIncr h l

/-- Function `_detect_emotions(frames)`: returns `(dominant_emotion, counts)`,
`("Neutral", {})` on an empty frame list or an empty histogram. -/
def detect_emotions (frames : List Frame) : String × Hist :=
  match frames with
  | [] => ("Neutral", [])
  | _ :: _ =>
    let counts := frames.foldl emoStep []
    match counts with
    | [] => ("Neutral", [])
    | _ :: _ => (dominantOf counts, counts)

/-! ### Gesture detector (`_detect_gestures`) -/

/-- Lookup `kp_labels[int(kp_id)]` wrapped in `try/except` (out-of-range lookup
yields no label). -/
def handLabel (kpLabels : List String) (kpId : Nat) : Option String :=
  kpLabels.get? kpId

/-- The label actually counted for one hand: `if label:` — Python truthiness
drops both a failed lookup and an empty-string label. -/
def handCounted (kpLabels : List String) (kpId : Nat) : Option String :=
  match handLabel kpLabels kpId with
  | none => none
  | some l => if l = "" then none else some l

/-- Histogram update of `_detect_gestures` for one hand. -/
def gestStep (kpLabels : List String) (h : Hist) (kpId : Nat) : Hist :=
  match handCounted kpLabels kpId with
  | none => h
  | some l => histIncr h l

/-- Histogram update of `_detect_gestures` for one frame: fold over the hands
mediapipe reports for it (an empty list is the `continue` branch). -/
def gestFrameStep (kpLabels : List String) (h : Hist) (f : Frame) : Hist :=
  f.hands.foldl (gestStep kpLabels) h

/-- Function `_detect_gestures(frames)`: returns `(dominant_gesture, counts)`,
`(None, {})` on an empty frame list or an empty histogram. -/
def detect_gestures (kpLabels : List String) (frames : List Frame) :
    Option String × Hist :=
  match frames with
  | [] => (none, [])
  | _ :: _ =>
    let counts := frames.foldl (gestFrameStep kpLabels) []
    match counts with
    | [] => (none, [])
    | _ :: _ => (some (dominantOf counts), counts)

/-! ### Frame sampler (`_sample_frames_for_analysis`) -/

/-- The decode loop: keep every frame whose index is a multiple of `n`,
and break as soon as `m` frames have been collected (the `m`-th kept frame
is included) or the stream ends. -/
def sampleGo {α : Type} (n m : Nat) : List α → Nat → Nat → List α
  | [], _, _ => []
  | f :: rest, idx, total =>
    if idx % n = 0 then
      if m ≤ total + 1 then [f]
      else f :: sampleGo n m rest (idx + 1) (total + 1)
    else sampleGo n m rest (idx + 1) total

/-- Function `_sample_frames_for_analysis(video_path, n, m)`: the decoded frame stream
is the oracle (`none` when `cap.isOpened()` is false, in which case the
sampler returns `[]` rather than raising). Defaults are `n = 12`, `m = 60`. -/
def sample_frames_for_analysis {α : Type} (video : Option (List α))
    (n m : Nat) : List α :=
  match video with
  | none => []
  | some fs => sampleGo n m fs 0 0

/-! ### Request environments and handler traces -/

/-- A trait prediction relayed verbatim from the text classifier. -/
abbrev Pred := String × ℚ

/-- Outcome of the HTTP call to `/analyze-text`: a transport error/timeout
(the `httpx` call raises), or a response with a status, a body text and the
parsed `predictions` list. -/
inductive ClassifierOutcome
  | netError
  | response (status : Nat) (text : String) (predictions : List Pred)
deriving DecidableEq

/-- The temp artifacts a request can create: the saved upload and the
extracted wav. -/
inductive TempFile
  | upload
  | wav
deriving DecidableEq

/-- Stage at which an unhandled (non-`HTTPException`) exception escaped. -/
inductive Stage
  | transcode
  | transcribe
  | classifierNet
deriving DecidableEq

/-- The `vision` object of the video response. -/
structure Vision where
  dominant_emotion : String
  dominant_gesture : Option String
  emotions : Hist
  gestures : Hist
deriving DecidableEq

/-- Result of the video handler: a JSON response (with HTTP status), an
`HTTPException`, or an unhandled exception from some stage. -/
inductive VideoResult
  | ok (status : Nat) (transcript : String) (predictions : List Pred)
    (vision : Vision) (message : Option String)
  | httpError (status : Nat) (detail : String)
  | exn (stage : Stage)
deriving DecidableEq

/-- Observable trace of one video request: its result, every temp file
created during it, the temp files still on disk after the handler returns,
and which expensive stages ran. -/
structure RunTrace where
  result : VideoResult
  created : List TempFile
  leftover : List TempFile
  classifierCalls : Nat
  framesSampled : Bool
  emotionRun : Bool
  gestureRun : Bool
deriving DecidableEq

/-- Oracle environment of one video request: the declared content type, and
the behaviour of each external dependency. `extractOk = false` means the
ffmpeg transcode raises (after its wav temp file was created);
`transcribeOk = false` means whisper loading/transcription raises. -/
structure VideoEnv where
  contentType : Option String
  extractOk : Bool
  transcribeOk : Bool
  whisperText : Option String
  classifier : ClassifierOutcome
  video : Option (List Frame)
  kpLabels : List String
deriving DecidableEq

/-- The video endpoint's content-type guard:
`not file.content_type or not file.content_type.startswith(("video/",
"application/octet-stream"))` rejects; an absent or empty content type is
falsy. -/
def ctVideoOk (ct : Option String) : Bool :=
  match ct with
  | none => false
  | some s =>
    (s != "") && (pyStartswith "video/" s || pyStartswith "application/octet-stream" s)

/-- Handler `analyze_video`, as a trace function of the request environment.

Control flow of the source: content-type guard; save upload to temp;
`try:` extract wav (the helper makes its own temp file, then runs ffmpeg),
transcribe, short-utterance short-circuit, classifier call, frame sampling,
emotion and gesture detection; `finally:` best-effort removal of
`video_path`, and of `wav_path` when that handler variable was assigned.
When the extraction raises, `wav_path` is still `None` in the handler even
though the helper's wav temp file exists, so that file is left on disk. -/
def analyze_video (env : VideoEnv) : RunTrace :=
  if ctVideoOk env.contentType then
    if env.extractOk then
      if env.transcribeOk then
        let transcript := pyTranscriptExpr pyTrimStub env.whisperText
        if (pySplit transcript).length < 2 then
          ⟨.ok 200 transcript [] ⟨"Neutral", none, [], []⟩
            (some "Please speak more so I can understand you better."),
           [.upload, .wav], [], 0, false, false, false⟩
        else
          match env.classifier with
          | .netError => ⟨.exn .classifierNet, [.upload, .wav], [], 1, false, false, false⟩
          | .response status text preds =>
            if status ≠ 200 then
              ⟨.httpError 500 ("classifier error: " ++ text),
               [.upload, .wav], [], 1, false, false, false⟩
            else
              let frames := sample_frames_for_analysis env.video 12 60
              ⟨.ok 200 transcript preds
                 ⟨(detect_emotions frames).1, (detect_gestures env.kpLabels frames).1,
                  (detect_emotions frames).2, (detect_gestures env.kpLabels frames).2⟩
                 none,
               [.upload, .wav], [], 1, true, true, true⟩
      else ⟨.exn .transcribe, [.upload, .wav], [], 0, false, false, false⟩
    else ⟨.exn .transcode, [.upload, .wav], [.wav], 0, false, false, false⟩
  else ⟨.httpError 400 "Please upload a video file (webm/mp4/mov).",
        [], [], 0, false, false, false⟩

/-- Oracle environment of one voice request. -/
structure VoiceEnv where
  contentType : Option String
  extractOk : Bool
  transcribeOk : Bool
  whisperText : Option String
  classifier : ClassifierOutcome
deriving DecidableEq

/-- Result of the voice handler. -/
inductive VoiceResult
  | ok (status : Nat) (transcript : String) (predictions : List Pred)
    (message : Option String)
  | httpError (status : Nat) (detail : String)
  | exn (stage : Stage)
deriving DecidableEq

/-- Observable trace of one voice request. -/
structure VoiceTrace where
  result : VoiceResult
  created : List TempFile
  leftover : List TempFile
  classifierCalls : Nat
deriving DecidableEq

/-- The voice endpoint's content-type guard:
`not file.content_type or not file.content_type.startswith("audio/")`. -/
def ctAudioOk (ct : Option String) : Bool :=
  match ct with
  | none => false
  | some s => (s != "") && pyStartswith "audio/" s

/-- Handler `analyze_voice`, as a trace function of the request environment. Its
`finally` removes `webm_path` always and `wav_path` only when
`'wav_path' in locals()`, i.e. only when `_webm_to_wav` returned; a raise
inside `_webm_to_wav` therefore leaves its wav temp file on disk. -/
def analyze_voice (env : VoiceEnv) : VoiceTrace :=
  if ctAudioOk env.contentType then
    if env.extractOk then
      if env.transcribeOk then
        let transcript := pyStrip (pyOrEmpty env.whisperText)
        if transcript = "" then
          ⟨.ok 200 "" [] (some "No speech detected."), [.upload, .wav], [], 0⟩
        else
          match env.classifier with
          | .netError => ⟨.exn .classifierNet, [.upload, .wav], [], 1⟩
          | .response status text preds =>
            if status ≠ 200 then
              ⟨.httpError 500 ("classifier error: " ++ text), [.upload, .wav], [], 1⟩
            else
              ⟨.ok 200 transcript preds none, [.upload, .wav], [], 1⟩
      else ⟨.exn .transcribe, [.upload, .wav], [], 0⟩
    else ⟨.exn .transcode, [.upload, .wav], [.wav], 0⟩
  else ⟨.httpError 400 "Please send an audio file blob (audio/webm).", [], [], 0⟩

/-! ### Spec-side comparison definition and concrete example inputs -/

/-- Modelled from the claim's words, for comparison with `dominantOf`: the
dominant label chosen among the keys tied at the maximum count by the
enumeration order of the label set. -/
def specEnumDominant (h : Hist) : Option String :=
  emoEnumeration.find? (fun l => h.any (fun p => p.1 == l && p.2 == maxCount h))

/-- A frame whose single confident face is classified with argmax index 5
("Sad"). -/
def exFrameSad : Frame :=
  ⟨300, 300, [⟨mkRat 9 10, 10, 10, 200, 200⟩], 5, []⟩

/-- A frame whose single confident face is classified with argmax index 0
("Angry"). -/
def exFrameAngry : Frame :=
  ⟨300, 300, [⟨mkRat 9 10, 10, 10, 200, 200⟩], 0, []⟩

/-- A frame with no face proposals and no detected hands. -/
def exFrameBlank : Frame :=
  ⟨100, 100, [], 0, []⟩

/-- A frame whose best face has argmax index 9, outside the sparse table. -/
def exFrameIdx9 : Frame :=
  ⟨300, 300, [⟨mkRat 9 10, 10, 10, 200, 200⟩], 9, []⟩

/-- A valid video request whose ffmpeg transcode raises (corrupt payload). -/
def exEnvTranscodeFail : VideoEnv :=
  ⟨some "video/webm", false, true, some "hello there", .response 200 "" [], some [], []⟩

/-- A valid voice request whose ffmpeg transcode raises (corrupt payload). -/
def exVoiceTranscodeFail : VoiceEnv :=
  ⟨some "audio/webm", false, true, some "hello there", .response 200 "" []⟩

/-- A valid video request whose whisper transcript is the single word "hi". -/
def exEnvShort : VideoEnv :=
  ⟨some "video/mp4", true, true, some " hi ", .response 200 "" [], none, []⟩

/-- A valid video request whose classifier answers 404. -/
def exEnv404 : VideoEnv :=
  ⟨some "video/webm", true, true, some "hello there", .response 404 "not found" [], some [], []⟩

/-- A valid voice request whose classifier answers 404. -/
def exVoice404 : VoiceEnv :=
  ⟨some "audio/webm", true, true, some "hello there", .response 404 "not found" []⟩

/-- A video request with an image content type. -/
def exEnvPng : VideoEnv :=
  ⟨some "image/png", true, true, some "hello there", .response 200 "" [], some [], []⟩

/-- A voice request with a missing content type. -/
def exVoiceNoCt : VoiceEnv :=
  ⟨none, true, true, some "hello there", .response 200 "" []⟩

/-! ### Lemmas and claim theorems -/

theorem maxCount_cons (p : String × Nat) (l : Hist) :
    maxCount (p :: l) = max p.2 (maxCount l) := rfl

theorem length_insertDesc (x : String × Nat) (l : Hist) :
    (insertDesc x l).length = l.length + 1 := by
  induction l with
  | nil => rfl
  | cons y ys ih =>
    simp only [insertDesc]
    by_cases h : x.2 < y.2
    · rw [if_pos h]; simp [ih]
    · rw [if_neg h]; simp

theorem length_pySortedDesc (l : Hist) :
    (pySortedDesc l).length = l.length := by
  induction l with
  | nil => rfl
  | cons x xs ih => simp [pySortedDesc, length_insertDesc, ih]

theorem pySortedDesc_head (l : Hist) :
    (pySortedDesc l).head? = l.find? (fun p => p.2 == maxCount l) := by
  induction l with
  | nil => rfl
  | cons x xs ih =>
    simp only [pySortedDesc]
    cases hxs : pySortedDesc xs with
    | nil =>
      have hx : xs = [] := by
        have h1 := length_pySortedDesc xs
        rw [hxs] at h1
        exact List.length_eq_zero.mp h1.symm
      subst hx
      simp [insertDesc, maxCount, List.find?]
    | cons y ys =>
      rw [hxs] at ih
      simp only [List.head?_cons] at ih
      have hy : xs.find? (fun p => p.2 == maxCount xs) = some y := ih.symm
      have hymax : y.2 = maxCount xs := by
        have h2 := List.find?_some hy
        simpa using h2
      simp only [insertDesc]
      by_cases hlt : x.2 < y.2
      · rw [if_pos hlt]
        have hmax : maxCount (x :: xs) = maxCount xs := by
          rw [maxCount_cons]
          rw [hymax] at hlt
          exact Nat.max_eq_right (Nat.le_of_lt hlt)
        rw [List.head?_cons, hmax, List.find?_cons_of_neg]
        · exact hy.symm
        · rw [hymax] at hlt
          simp only [beq_iff_eq]
          omega
      · rw [if_neg hlt]
        have hmax : maxCount (x :: xs) = x.2 := by
          rw [maxCount_cons, ← hymax]
          rw [hymax] at hlt
          rw [hymax]
          exact Nat.max_eq_left (by omega)
        rw [List.head?_cons, hmax, List.find?_cons_of_pos]
        simp

theorem dominantOf_firstMax (l : Hist) (hl : l ≠ []) :
    l.find? (fun p => p.2 == maxCount l) = some (dominantOf l, maxCount l) := by
  have h1 := pySortedDesc_head l
  cases hs : pySortedDesc l with
  | nil =>
    exfalso
    apply hl
    have h2 := length_pySortedDesc l
    rw [hs] at h2
    exact List.length_eq_zero.mp h2.symm
  | cons q qs =>
    rw [hs] at h1
    simp only [List.head?_cons] at h1
    have hq : q.2 = maxCount l := by
      have h2 := List.find?_some h1.symm
      simpa using h2
    have hdom : dominantOf l = q.1 := by
      simp [dominantOf, hs]
    rw [← h1, hdom, ← hq]

theorem detect_emotions_nonempty (frames : List Frame)
    (h : (detect_emotions frames).2 ≠ []) :
    detect_emotions frames =
      (dominantOf (detect_emotions frames).2, (detect_emotions frames).2) := by
  cases frames with
  | nil => simp [detect_emotions] at h
  | cons f fs =>
    simp only [detect_emotions] at h ⊢
    cases hc : List.foldl emoStep [] (f :: fs) with
    | nil => rw [hc] at h; simp at h
    | cons p ps => simp

/-- C3 (amended): for every non-empty emotion histogram, the dominant emotion
is a key attaining the maximum occurrence count, and on ties the label that
was first recorded in the histogram (first seen across the frames) is
returned — Python's stable `sorted` keeps dict insertion order on equal
counts. -/
theorem c3_dominant_is_first_seen_max (frames : List Frame)
    (h : (detect_emotions frames).2 ≠ []) :
    (detect_emotions frames).2.find?
        (fun p => p.2 == maxCount (detect_emotions frames).2)
      = some ((detect_emotions frames).1, maxCount (detect_emotions frames).2) := by
  have he := detect_emotions_nonempty frames h
  have h1 : (detect_emotions frames).1 = dominantOf (detect_emotions frames).2 := by
    conv_lhs => rw [he]
  rw [h1]
  exact dominantOf_firstMax _ h

/-- Witness for the amended C3 at a concrete two-frame input. -/
theorem c3_dominant_is_first_seen_max_witness :
    (detect_emotions [exFrameSad, exFrameAngry]).2 ≠ [] ∧
    (detect_emotions [exFrameSad, exFrameAngry]).2.find?
        (fun p => p.2 == maxCount (detect_emotions [exFrameSad, exFrameAngry]).2)
      = some ((detect_emotions [exFrameSad, exFrameAngry]).1,
          maxCount (detect_emotions [exFrameSad, exFrameAngry]).2) :=
  ⟨by decide, c3_dominant_is_first_seen_max [exFrameSad, exFrameAngry] (by decide)⟩

/-- C3 counterexample: on a histogram where "Sad" and "Angry" tie at the
maximum count with "Sad" recorded first, the code returns "Sad", while the
claimed enumeration-order tie-break would return "Angry". -/
theorem c3_counterexample_enumeration_tie :
    (detect_emotions [exFrameSad, exFrameAngry]).2 = [("Sad", 1), ("Angry", 1)] ∧
    specEnumDominant [("Sad", 1), ("Angry", 1)] = some "Angry" ∧
    (detect_emotions [exFrameSad, exFrameAngry]).1 = "Sad" ∧
    ("Sad" : String) ≠ "Angry" := by decide

/-- C1: the claimed cleanup invariant fails — on a valid video (or voice)
request whose ffmpeg transcode raises after the wav temp file was created,
the handler's `finally` removes only the saved upload; the wav artifact it
created is still on disk when the handler returns. -/
theorem c1_wav_leak_on_transcode_failure :
    TempFile.wav ∈ (analyze_video exEnvTranscodeFail).created ∧
    (analyze_video exEnvTranscodeFail).leftover = [TempFile.wav] ∧
    TempFile.wav ∈ (analyze_voice exVoiceTranscodeFail).created ∧
    (analyze_voice exVoiceTranscodeFail).leftover = [TempFile.wav] := by decide

/-- C8: a video request whose content type is missing, empty, or not starting
with "video/" or "application/octet-stream", and a voice request whose
content type is missing, empty, or not starting with "audio/", are rejected
with a 400 error, with no temp file created and no further processing. -/
theorem c8_content_type_guard (ve : VideoEnv) (ae : VoiceEnv)
    (hv : ctVideoOk ve.contentType = false)
    (ha : ctAudioOk ae.contentType = false) :
    analyze_video ve =
      ⟨.httpError 400 "Please upload a video file (webm/mp4/mov).",
       [], [], 0, false, false, false⟩ ∧
    analyze_voice ae =
      ⟨.httpError 400 "Please send an audio file blob (audio/webm).", [], [], 0⟩ ∧
    ctVideoOk (some "image/png") = false ∧
    ctVideoOk none = false ∧
    ctAudioOk none = false := by
  refine ⟨?_, ?_, by decide, by decide, by decide⟩
  · simp [analyze_video, hv]
  · simp [analyze_voice, ha]

/-- Witness for C8 at a concrete "image/png" video request and a concrete
missing-content-type voice request. -/
theorem c8_content_type_guard_witness :
    ctVideoOk exEnvPng.contentType = false ∧
    ctAudioOk exVoiceNoCt.contentType = false ∧
    analyze_video exEnvPng =
      ⟨.httpError 400 "Please upload a video file (webm/mp4/mov).",
       [], [], 0, false, false, false⟩ ∧
    analyze_voice exVoiceNoCt =
      ⟨.httpError 400 "Please send an audio file blob (audio/webm).", [], [], 0⟩ :=
  ⟨by decide, by decide,
   (c8_content_type_guard exEnvPng exVoiceNoCt (by decide) (by decide)).1,
   (c8_content_type_guard exEnvPng exVoiceNoCt (by decide) (by decide)).2.1⟩

/-- C9: the transcript conditional of the video handler is equivalent to
plain stripping: `hasattr(str, "trim")` is false for Python strings, so the
`.trim()` branch is dead, whatever meaning `trim` would have; `None` is
replaced by the empty string before stripping. -/
theorem c9_trim_branch_dead (trimF : String → String) (t : Option String) :
    pyTranscriptExpr trimF t = pyStrip (pyOrEmpty t) ∧
    hasattr_str_trim = false ∧
    pyOrEmpty none = "" :=
  ⟨rfl, rfl, rfl⟩

theorem emoFold_const (frames : List Frame)
    (h : ∀ f ∈ frames, emoFrameLabel f = none) :
    ∀ h0 : Hist, frames.foldl emoStep h0 = h0 := by
  induction frames with
  | nil => intro h0; rfl
  | cons f fs ih =>
    intro h0
    have hf : emoFrameLabel f = none := h f (List.mem_cons_self f fs)
    simp only [List.foldl_cons]
    have hstep : emoStep h0 f = h0 := by
      unfold emoStep
      rw [hf]
    rw [hstep]
    exact ih (fun g hg => h g (List.mem_cons_of_mem f hg)) h0

theorem handsFold_const (kp : List String) (hands : List Nat)
    (h : ∀ i ∈ hands, handCounted kp i = none) :
    ∀ h0 : Hist, hands.foldl (gestStep kp) h0 = h0 := by
  induction hands with
  | nil => intro h0; rfl
  | cons i is ih =>
    intro h0
    have hi : handCounted kp i = none := h i (List.mem_cons_self i is)
    simp only [List.foldl_cons]
    have hstep : gestStep kp h0 i = h0 := by
      unfold gestStep
      rw [hi]
    rw [hstep]
    exact ih (fun j hj => h j (List.mem_cons_of_mem i hj)) h0

theorem gestFold_const (kp : List String) (frames : List Frame)
    (h : ∀ f ∈ frames, ∀ i ∈ f.hands, handCounted kp i = none) :
    ∀ h0 : Hist, frames.foldl (gestFrameStep kp) h0 = h0 := by
  induction frames with
  | nil => intro h0; rfl
  | cons f fs ih =>
    intro h0
    simp only [List.foldl_cons]
    have hstep : gestFrameStep kp h0 f = h0 := by
      unfold gestFrameStep
      exact handsFold_const kp f.hands (h f (List.mem_cons_self f fs)) h0
    rw [hstep]
    exact ih (fun g hg => h g (List.mem_cons_of_mem f hg)) h0

/-- C7: on an empty frame sequence, and likewise on frames in which no
confident detection is ever recorded, the emotion detector returns
`("Neutral", {})` and the gesture detector returns `(None, {})`. -/
theorem c7_neutral_defaults :
    detect_emotions [] = ("Neutral", []) ∧
    (∀ kp : List String, detect_gestures kp [] = (none, [])) ∧
    (∀ frames : List Frame, (∀ f ∈ frames, emoFrameLabel f = none) →
      detect_emotions frames = ("Neutral", [])) ∧
    (∀ (kp : List String) (frames : List Frame),
      (∀ f ∈ frames, ∀ i ∈ f.hands, handCounted kp i = none) →
      detect_gestures kp frames = (none, [])) := by
  refine ⟨rfl, fun kp => rfl, ?_, ?_⟩
  · intro frames h
    cases frames with
    | nil => rfl
    | cons f fs =>
      simp only [detect_emotions]
      rw [emoFold_const (f :: fs) h []]
  · intro kp frames h
    cases frames with
    | nil => rfl
    | cons f fs =>
      simp only [detect_gestures]
      rw [gestFold_const kp (f :: fs) h []]

/-- Witness for C7: concrete blank frames with no detections. -/
theorem c7_neutral_defaults_witness :
    (∀ f ∈ [exFrameBlank], emoFrameLabel f = none) ∧
    detect_emotions [exFrameBlank] = ("Neutral", []) ∧
    (∀ f ∈ [exFrameBlank], ∀ i ∈ f.hands, handCounted ["Open"] i = none) ∧
    detect_gestures ["Open"] [exFrameBlank] = (none, []) :=
  ⟨by decide, c7_neutral_defaults.2.2.1 [exFrameBlank] (by decide),
   by decide, c7_neutral_defaults.2.2.2 ["Open"] [exFrameBlank] (by decide)⟩

theorem emoLabelGet_default (i : Nat) (h : 7 ≤ i) : emoLabelGet i = "Neutral" := by
  unfold emoLabelGet EMO_LABELS
  split_ifs with h1 h2 h3 h4 h5 h6
  · omega
  · omega
  · omega
  · omega
  · omega
  · omega
  · rfl

theorem emoLabelGet_mem (i : Nat) : emoLabelGet i ∈ emoEnumeration := by
  unfold emoLabelGet EMO_LABELS emoEnumeration
  split_ifs <;> simp

theorem emoFrameLabel_is_tableGet (f : Frame) (l : String)
    (h : emoFrameLabel f = some l) : l = emoLabelGet f.predIdx := by
  unfold emoFrameLabel at h
  cases hb : bestFace f.w f.h f.dets with
  | none => rw [hb] at h; exact absurd h (by simp)
  | some b =>
    rw [hb] at h
    dsimp only at h
    by_cases hc : cropSize b = 0
    · rw [if_pos hc] at h; exact absurd h (by simp)
    · rw [if_neg hc] at h
      exact (Option.some_injective _ h).symm

theorem histIncr_keys (h : Hist) (k : String) :
    ∀ p ∈ histIncr h k, p.1 = k ∨ p ∈ h := by
  induction h with
  | nil =>
    intro p hp
    simp only [histIncr, List.mem_singleton] at hp
    left
    rw [hp]
  | cons q rest ih =>
    intro p hp
    simp only [histIncr] at hp
    by_cases hq : q.1 = k
    · rw [if_pos hq] at hp
      rcases List.mem_cons.mp hp with hp | hp
      · left; rw [hp]; exact hq
      · right; exact List.mem_cons_of_mem q hp
    · rw [if_neg hq] at hp
      rcases List.mem_cons.mp hp with hp | hp
      · right; rw [hp]; exact List.mem_cons_self q rest
      · rcases ih p hp with h1 | h1
        · left; exact h1
        · right; exact List.mem_cons_of_mem q h1

theorem emoFold_keys (frames : List Frame) :
    ∀ h0 : Hist, (∀ q ∈ h0, q.1 ∈ emoEnumeration) →
      ∀ p ∈ frames.foldl emoStep h0, p.1 ∈ emoEnumeration := by
  induction frames with
  | nil => intro h0 hh p hp; exact hh p hp
  | cons f fs ih =>
    intro h0 hh p hp
    simp only [List.foldl_cons] at hp
    refine ih (emoStep h0 f) ?_ p hp
    intro q hq
    unfold emoStep at hq
    cases hl : emoFrameLabel f with
    | none => rw [hl] at hq; exact hh q hq
    | some l =>
      rw [hl] at hq
      rcases histIncr_keys h0 l q hq with h1 | h1
      · rw [h1, emoFrameLabel_is_tableGet f l hl]
        exact emoLabelGet_mem f.predIdx
      · exact hh q h1

/-- C10: the emotion label is looked up in the sparse table with default
"Neutral": index 1 and every index at least 7 yield "Neutral" rather than a
lookup error, every possible looked-up label is one of the six fixed labels,
and hence every key of the emotion histogram is one of the six labels. -/
theorem c10_sparse_table_safety :
    emoLabelGet 1 = "Neutral" ∧
    (∀ i : Nat, 7 ≤ i → emoLabelGet i = "Neutral") ∧
    (∀ i : Nat, emoLabelGet i ∈ emoEnumeration) ∧
    (∀ frames : List Frame, ∀ p ∈ (detect_emotions frames).2,
      p.1 ∈ emoEnumeration) := by
  refine ⟨rfl, emoLabelGet_default, emoLabelGet_mem, ?_⟩
  intro frames p hp
  cases frames with
  | nil => exact absurd hp (by simp [detect_emotions])
  | cons f fs =>
    simp only [detect_emotions] at hp
    have hp2 : p ∈ List.foldl emoStep [] (f :: fs) := by
      cases hc : List.foldl emoStep [] (f :: fs) with
      | nil => rw [hc] at hp; exact absurd hp (by simp)
      | cons q qs =>
        rw [hc] at hp
        dsimp only at hp
        exact hp
    exact emoFold_keys (f :: fs) [] (by simp) p hp2

/-- Witness for C10: index 9 falls back to "Neutral", and the key recorded
for a concrete out-of-table frame is in the label set. -/
theorem c10_sparse_table_safety_witness :
    (7 ≤ 9 ∧ emoLabelGet 9 = "Neutral") ∧
    emoLabelGet 1 = "Neutral" ∧
    (("Neutral", 1) ∈ (detect_emotions [exFrameIdx9]).2 ∧
      (("Neutral", 1) : String × Nat).1 ∈ emoEnumeration) :=
  ⟨⟨by decide, c10_sparse_table_safety.2.1 9 (by decide)⟩,
   c10_sparse_table_safety.1,
   ⟨by decide, c10_sparse_table_safety.2.2.2 [exFrameIdx9] ("Neutral", 1) (by decide)⟩⟩

theorem histTotal_incr (h : Hist) (k : String) :
    histTotal (histIncr h k) = histTotal h + 1 := by
  induction h with
  | nil => rfl
  | cons p rest ih =>
    simp only [histIncr]
    by_cases hp : p.1 = k
    · rw [if_pos hp]
      simp only [histTotal, List.map_cons, List.sum_cons]
      omega
    · rw [if_neg hp]
      simp only [histTotal, List.map_cons, List.sum_cons] at ih ⊢
      omega

theorem histTotal_emoStep (h : Hist) (f : Frame) :
    histTotal (emoStep h f) ≤ histTotal h + 1 := by
  unfold emoStep
  cases emoFrameLabel f with
  | none => dsimp only; omega
  | some l => dsimp only; rw [histTotal_incr]

theorem histTotal_emoFold (frames : List Frame) :
    ∀ h0 : Hist, histTotal (frames.foldl emoStep h0) ≤ histTotal h0 + frames.length := by
  induction frames with
  | nil => intro h0; simp
  | cons f fs ih =>
    intro h0
    simp only [List.foldl_cons, List.length_cons]
    have h1 := ih (emoStep h0 f)
    have h2 := histTotal_emoStep h0 f
    omega

theorem histTotal_gestStep (kp : List String) (h : Hist) (i : Nat) :
    histTotal (gestStep kp h i) ≤ histTotal h + 1 := by
  unfold gestStep
  cases handCounted kp i with
  | none => dsimp only; omega
  | some l => dsimp only; rw [histTotal_incr]

theorem histTotal_handsFold (kp : List String) (hands : List Nat) :
    ∀ h0 : Hist, histTotal (hands.foldl (gestStep kp) h0) ≤ histTotal h0 + hands.length := by
  induction hands with
  | nil => intro h0; simp
  | cons i is ih =>
    intro h0
    simp only [List.foldl_cons, List.length_cons]
    have h1 := ih (gestStep kp h0 i)
    have h2 := histTotal_gestStep kp h0 i
    omega

theorem histTotal_gestFold (kp : List String) (frames : List Frame)
    (hh : ∀ f ∈ frames, f.hands.length ≤ 2) :
    ∀ h0 : Hist,
      histTotal (frames.foldl (gestFrameStep kp) h0) ≤ histTotal h0 + 2 * frames.length := by
  induction frames with
  | nil => intro h0; simp
  | cons f fs ih =>
    intro h0
    simp only [List.foldl_cons, List.length_cons]
    have h1 := ih (fun g hg => hh g (List.mem_cons_of_mem f hg)) (gestFrameStep kp h0 f)
    have h2 : histTotal (gestFrameStep kp h0 f) ≤ histTotal h0 + 2 := by
      have h3 := histTotal_handsFold kp f.hands h0
      have h4 := hh f (List.mem_cons_self f fs)
      unfold gestFrameStep
      omega
    omega

theorem histTotal_detect_emotions (frames : List Frame) :
    histTotal (detect_emotions frames).2 ≤ frames.length := by
  cases frames with
  | nil => simp [detect_emotions, histTotal]
  | cons f fs =>
    simp only [detect_emotions]
    cases hc : List.foldl emoStep [] (f :: fs) with
    | nil => simp [histTotal]
    | cons q qs =>
      dsimp only
      rw [← hc]
      have h1 := histTotal_emoFold (f :: fs) []
      simpa [histTotal] using h1

theorem histTotal_detect_gestures (kp : List String) (frames : List Frame)
    (hh : ∀ f ∈ frames, f.hands.length ≤ 2) :
    histTotal (detect_gestures kp frames).2 ≤ 2 * frames.length := by
  cases frames with
  | nil => simp [detect_gestures, histTotal]
  | cons f fs =>
    simp only [detect_gestures]
    cases hc : List.foldl (gestFrameStep kp) [] (f :: fs) with
    | nil => simp [histTotal]
    | cons q qs =>
      dsimp only
      rw [← hc]
      have h1 := histTotal_gestFold kp (f :: fs) hh []
      simpa [histTotal] using h1

/-- C6: the emotion histogram records at most one increment per frame, so its
counts sum to at most the number of frames; the gesture histogram records at
most one increment per classified hand with at most two hands per frame, so
its counts sum to at most twice the number of frames. -/
theorem c6_histogram_sums (kp : List String) (frames : List Frame)
    (hh : ∀ f ∈ frames, f.hands.length ≤ 2) :
    histTotal (detect_emotions frames).2 ≤ frames.length ∧
    histTotal (detect_gestures kp frames).2 ≤ 2 * frames.length :=
  ⟨histTotal_detect_emotions frames, histTotal_detect_gestures kp frames hh⟩

/-- Witness for C6 at a concrete two-frame input with at most two hands per
frame. -/
theorem c6_histogram_sums_witness :
    (∀ f ∈ [exFrameSad, exFrameBlank], f.hands.length ≤ 2) ∧
    histTotal (detect_emotions [exFrameSad, exFrameBlank]).2 ≤ 2 ∧
    histTotal (detect_gestures ["Open"] [exFrameSad, exFrameBlank]).2 ≤ 2 * 2 :=
  ⟨by decide,
   (c6_histogram_sums ["Open"] [exFrameSad, exFrameBlank] (by decide)).1,
   (c6_histogram_sums ["Open"] [exFrameSad, exFrameBlank] (by decide)).2⟩

theorem sampleGo_eq {α : Type} (n m : Nat) (fs : List α) :
    ∀ idx total : Nat, total < m →
      sampleGo n m fs idx total
        = (((List.enumFrom idx fs).filter (fun p => p.1 % n == 0)).map Prod.snd).take
            (m - total) := by
  induction fs with
  | nil => intro idx total h; simp [sampleGo, List.enumFrom]
  | cons f rest ih =>
    intro idx total h
    simp only [sampleGo, List.enumFrom]
    by_cases hidx : idx % n = 0
    · rw [if_pos hidx]
      rw [List.filter_cons_of_pos (by simpa using hidx)]
      simp only [List.map_cons]
      by_cases hm : m ≤ total + 1
      · rw [if_pos hm]
        have h1 : m - total = 1 := by omega
        rw [h1]
        simp
      · rw [if_neg hm]
        have h1 : m - total = (m - (total + 1)) + 1 := by omega
        rw [h1, List.take_succ_cons]
        rw [ih (idx + 1) (total + 1) (by omega)]
    · rw [if_neg hidx]
      rw [List.filter_cons_of_neg (by simpa using hidx)]
      exact ih (idx + 1) total h

/-- C5: with a positive stride `n` and positive cap `m`, the frame sampler
returns, in order, exactly the decoded frames whose index is a multiple of
`n`, truncated to the first `m` of them; its result never exceeds `m`
frames; and an unopenable source yields the empty sequence. -/
theorem c5_frame_sampler {α : Type} (fs : List α) (n m : Nat)
    (_hn : 0 < n) (hm : 0 < m) :
    sample_frames_for_analysis (some fs) n m
      = ((fs.enum.filter (fun p => p.1 % n == 0)).map Prod.snd).take m ∧
    (sample_frames_for_analysis (some fs) n m).length ≤ m ∧
    sample_frames_for_analysis (none : Option (List α)) n m = [] := by
  have h1 : sample_frames_for_analysis (some fs) n m
      = ((fs.enum.filter (fun p => p.1 % n == 0)).map Prod.snd).take m := by
    have h2 := sampleGo_eq n m fs 0 0 hm
    simpa [sample_frames_for_analysis, List.enum] using h2
  refine ⟨h1, ?_, rfl⟩
  rw [h1]
  exact List.length_take_le m _

/-- Witness for C5 on a concrete 30-frame stream with stride 12 and cap 2. -/
theorem c5_frame_sampler_witness :
    0 < 12 ∧ 0 < 2 ∧
    (sample_frames_for_analysis (some (List.range 30)) 12 2
        = (((List.range 30).enum.filter (fun p => p.1 % 12 == 0)).map Prod.snd).take 2 ∧
      (sample_frames_for_analysis (some (List.range 30)) 12 2).length ≤ 2 ∧
      sample_frames_for_analysis (none : Option (List Nat)) 12 2 = []) :=
  ⟨by decide, by decide, c5_frame_sampler (List.range 30) 12 2 (by decide) (by decide)⟩

/-- C2: when the stripped transcript has fewer than 2 words, the video
handler returns a 200 response with empty predictions, the neutral default
vision fields and the advisory message, and it performs no classifier call,
no frame sampling and no emotion or gesture detection (and still removes
both temp files). -/
theorem c2_short_utterance (env : VideoEnv)
    (hct : ctVideoOk env.contentType = true)
    (hex : env.extractOk = true)
    (htr : env.transcribeOk = true)
    (hshort : (pySplit (pyTranscriptExpr pyTrimStub env.whisperText)).length < 2) :
    analyze_video env =
      ⟨.ok 200 (pyTranscriptExpr pyTrimStub env.whisperText) []
         ⟨"Neutral", none, [], []⟩
         (some "Please speak more so I can understand you better."),
       [.upload, .wav], [], 0, false, false, false⟩ := by
  simp [analyze_video, hct, hex, htr, hshort]

/-- Witness for C2 at a concrete request whose transcript strips to the
single word "hi". -/
theorem c2_short_utterance_witness :
    ctVideoOk exEnvShort.contentType = true ∧
    exEnvShort.extractOk = true ∧
    exEnvShort.transcribeOk = true ∧
    (pySplit (pyTranscriptExpr pyTrimStub exEnvShort.whisperText)).length < 2 ∧
    analyze_video exEnvShort =
      ⟨.ok 200 (pyTranscriptExpr pyTrimStub exEnvShort.whisperText) []
         ⟨"Neutral", none, [], []⟩
         (some "Please speak more so I can understand you better."),
       [.upload, .wav], [], 0, false, false, false⟩ :=
  ⟨by decide, by decide, by decide, by decide,
   c2_short_utterance exEnvShort (by decide) (by decide) (by decide) (by decide)⟩

/-- C4: whenever a request (video or voice) actually performs the classifier
call and the classifier answers with any non-2xx status, the handler raises
`HTTPException(500, ...)` — no partial report is returned. -/
theorem c4_non2xx_classifier_fatal (s : Nat) (txt : String) (preds : List Pred)
    (hs : ¬ (200 ≤ s ∧ s < 300)) :
    (∀ env : VideoEnv, env.classifier = .response s txt preds →
      (analyze_video env).classifierCalls ≠ 0 →
      (analyze_video env).result = .httpError 500 ("classifier error: " ++ txt)) ∧
    (∀ env : VoiceEnv, env.classifier = .response s txt preds →
      (analyze_voice env).classifierCalls ≠ 0 →
      (analyze_voice env).result = .httpError 500 ("classifier error: " ++ txt)) := by
  have hs200 : s ≠ 200 := by omega
  constructor
  · intro env hc hcall
    simp only [analyze_video, hc] at hcall ⊢
    split_ifs at hcall ⊢ <;> simp_all
  · intro env hc hcall
    simp only [analyze_voice, hc] at hcall ⊢
    split_ifs at hcall ⊢ <;> simp_all

/-- Witness for C4 at concrete video and voice requests whose classifier
answers 404. -/
theorem c4_non2xx_classifier_fatal_witness :
    ¬ (200 ≤ 404 ∧ 404 < 300) ∧
    exEnv404.classifier = .response 404 "not found" [] ∧
    (analyze_video exEnv404).classifierCalls ≠ 0 ∧
    (analyze_video exEnv404).result = .httpError 500 ("classifier error: " ++ "not found") ∧
    exVoice404.classifier = .response 404 "not found" [] ∧
    (analyze_voice exVoice404).classifierCalls ≠ 0 ∧
    (analyze_voice exVoice404).result = .httpError 500 ("classifier error: " ++ "not found") :=
  ⟨by decide, by decide, by decide,
   (c4_non2xx_classifier_fatal 404 "not found" [] (by omega)).1 exEnv404 (by decide) (by decide),
   by decide, by decide,
   (c4_non2xx_classifier_fatal 404 "not found" [] (by omega)).2 exVoice404 (by decide) (by decide)⟩

end IFS
